import Mathlib

/-!
Verification of the CoreKit browser widgets (watermark overlay and scroll
observer) against their natural-language specification.

The TypeScript/JavaScript sources are shallowly embedded:
* JavaScript numbers are modelled by `JsNum` (exact rationals plus the IEEE
  special values `-Infinity`, `Infinity`, `NaN`); exact rational arithmetic
  stands in for floating point, since no claim depends on rounding.
* `ctx.measureText` is an oracle parameter `mt : String → String → ℚ`
  (text, font) ↦ measured width.
* DOM state and browser observers are embedded as explicit state records
  with step functions for the events the claims mention.
-/

namespace CoreKit

/-- JavaScript number: `-Infinity`, `Infinity`, `NaN`, or a finite value
(modelled as an exact rational). -/
inductive JsNum where
  | negInf
  | posInf
  | nan
  | fin (q : ℚ)
deriving DecidableEq, Repr

/-- JS `+` on numbers: `NaN` propagates, `-Infinity + Infinity = NaN`,
infinities absorb finite values. -/
def JsNum.add : JsNum → JsNum → JsNum
  | nan, _ => nan
  | _, nan => nan
  | negInf, posInf => nan
  | posInf, negInf => nan
  | negInf, _ => negInf
  | _, negInf => negInf
  | posInf, _ => posInf
  | _, posInf => posInf
  | fin a, fin b => fin (a + b)

/-- JS `Math.max` on two numbers: `NaN` propagates, otherwise numeric max
with `-Infinity` as identity. -/
def JsNum.maxJ : JsNum → JsNum → JsNum
  | nan, _ => nan
  | _, nan => nan
  | negInf, b => b
  | a, negInf => a
  | posInf, _ => posInf
  | _, posInf => posInf
  | fin a, fin b => fin (max a b)

/-- JS `<` comparison: any comparison with `NaN` is false. -/
def JsNum.ltJ : JsNum → JsNum → Bool
  | nan, _ => false
  | _, nan => false
  | negInf, negInf => false
  | negInf, _ => true
  | _, negInf => false
  | posInf, _ => false
  | _, posInf => true
  | fin a, fin b => decide (a < b)

/-- JS `-` on numbers: `NaN` propagates, `∞ - ∞` of equal signs is `NaN`,
infinities absorb finite values. -/
def JsNum.subJ : JsNum → JsNum → JsNum
  | nan, _ => nan
  | _, nan => nan
  | negInf, negInf => nan
  | posInf, posInf => nan
  | negInf, _ => negInf
  | _, posInf => negInf
  | posInf, _ => posInf
  | _, negInf => posInf
  | fin a, fin b => fin (a - b)

/-- JS `*` on numbers: `NaN` propagates, `0 * ∞ = NaN`, otherwise the
usual sign rules for infinities. -/
def JsNum.mulJ : JsNum → JsNum → JsNum
  | nan, _ => nan
  | _, nan => nan
  | fin a, fin b => fin (a * b)
  | fin a, negInf => if a = 0 then nan else if 0 < a then negInf else posInf
  | fin a, posInf => if a = 0 then nan else if 0 < a then posInf else negInf
  | negInf, fin a => if a = 0 then nan else if 0 < a then negInf else posInf
  | posInf, fin a => if a = 0 then nan else if 0 < a then posInf else negInf
  | negInf, negInf => posInf
  | negInf, posInf => negInf
  | posInf, negInf => negInf
  | posInf, posInf => posInf

/-- JS division by a nonzero numeric literal (the embedded code divides
only by `2` and `100`): `NaN` propagates, infinities keep or flip their
sign with the divisor's. -/
def JsNum.divQ : JsNum → ℚ → JsNum
  | nan, _ => nan
  | negInf, c => if 0 < c then negInf else posInf
  | posInf, c => if 0 < c then posInf else negInf
  | fin a, c => fin (a / c)

/-- JS `Math.abs`: `NaN` propagates, both infinities map to `Infinity`. -/
def JsNum.absJ : JsNum → JsNum
  | nan => nan
  | negInf => posInf
  | posInf => posInf
  | fin a => fin |a|

/-- `reduce((acc, x) => acc + x, 0)` over a list of JS numbers. -/
def jsSum (l : List JsNum) : JsNum := l.foldl JsNum.add (JsNum.fin 0)

/-- `Math.max(...l)`: variadic max, `-Infinity` when the list is empty. -/
def jsMaxL (l : List JsNum) : JsNum := l.foldl JsNum.maxJ JsNum.negInf

/-- JS `a || d` for an optional number: `undefined` and `0` are falsy. -/
def jsOrQ (a : Option ℚ) (d : ℚ) : ℚ :=
  match a with
  | some q => if q = 0 then d else q
  | none => d

/-- JS `a || d` for an optional string: `undefined` and `""` are falsy. -/
def jsOrStr (a : Option String) (d : String) : String :=
  match a with
  | some s => if s = "" then d else s
  | none => d

/-- JS `a || b` where both sides are optional strings (used for
`node.fontColor || globalOptions.fontColor`). -/
def jsOrStrOpt (a b : Option String) : Option String :=
  match a with
  | some s => if s = "" then b else some s
  | none => b

/-! ## Data model of the watermark layout engine
(src/packages/watermark/src/core/layout.ts) -/

/-- Style attributes of a `WatermarkContentText` node (all optional).
`fontWeight` can be a string or number in the source; both render into the
font string, so it is modelled as a string. -/
structure TextStyle where
  fontSize : Option ℚ := none
  fontWeight : Option String := none
  fontFamily : Option String := none
  fontColor : Option String := none
  rowGap : Option ℚ := none
  rotate : Option ℚ := none
deriving DecidableEq, Repr

/-- `WatermarkContent`: tagged union of text, image and group nodes.
Group `gap` is modelled as an optional scalar; the `[x, y]` per-group form
is resolved to its first component by `_resolveGap` before it matters to
any claim. -/
inductive WatermarkContent where
  | text (style : TextStyle) (text : String)
  | image (src : String) (width height rotate : Option ℚ)
  | group (layout : String) (gap : Option ℚ) (items : List WatermarkContent)

/-- `WatermarkOptions` of the TS watermark package: the fields consumed by
`LayoutEngine.measure` and `CanvasDrawer.generate`. -/
structure WatermarkOptions where
  fontSize : Option ℚ := none
  fontWeight : Option String := none
  fontFamily : Option String := none
  fontColor : Option String := none
  rotate : Option ℚ := none
  layout : Option String := none
deriving DecidableEq, Repr

/-- `MeasuredNode`: a content node annotated with computed render extents
(`_renderWidth`/`_renderHeight`), and for text the resolved font/color,
for groups the measured children and the ratio-scaled gap. -/
inductive MeasuredNode where
  | text (style : TextStyle) (text : String) (w h : JsNum)
      (font : String) (color : Option String)
  | image (src : String) (w h : JsNum)
  | group (layout : String) (items : List MeasuredNode) (w h : JsNum)
      (gapScaled : ℚ)

/-- `_renderWidth` of a measured node. -/
def MeasuredNode.renderW : MeasuredNode → JsNum
  | .text _ _ w _ _ _ => w
  | .image _ w _ => w
  | .group _ _ w _ _ => w

/-- `_renderHeight` of a measured node. -/
def MeasuredNode.renderH : MeasuredNode → JsNum
  | .text _ _ _ h _ _ => h
  | .image _ _ h => h
  | .group _ _ _ h _ => h

namespace LayoutEngine

/-- Resolved CSS font string `"{weight} {size}px {family}"` built by
`measure` for a text node. -/
def fontString (weight : String) (size : ℚ) (family : String) : String :=
  weight ++ " " ++ toString size ++ "px " ++ family

mutual

/-- `LayoutEngine.measure(ctx, node, globalOptions, ratio)`.
`mt text font` is the oracle for `ctx.measureText(text).width` under the
given font. Text: font resolved node-then-global-then-default (JS `||`,
so explicit `0`/`""` fall through), width from `measureText`, height
`fontSize * 1.2`. Image: `(width || 50) * ratio`. Group: children measured
first; `row` sums widths plus `(n-1)*gap` and takes max height, any other
layout takes max width and sums heights plus `(n-1)*gap`; the sum is a JS
`reduce` from `0` and the max is `Math.max(...)` (which is `-Infinity` on
an empty argument list). -/
def measure (mt : String → String → ℚ) (g : WatermarkOptions) (ratio : ℚ) :
    WatermarkContent → MeasuredNode
  | .text st t =>
    let fontSize := (jsOrQ st.fontSize (jsOrQ g.fontSize 16)) * ratio
    let font := fontString (jsOrStr st.fontWeight (jsOrStr g.fontWeight "normal"))
      fontSize (jsOrStr st.fontFamily (jsOrStr g.fontFamily "sans-serif"))
    .text st t (.fin (mt t font)) (.fin (fontSize * (12 / 10))) font
      (jsOrStrOpt st.fontColor g.fontColor)
  | .image src w h _ =>
    .image src (.fin ((jsOrQ w 50) * ratio)) (.fin ((jsOrQ h 50) * ratio))
  | .group layout gap items =>
    let measuredItems := measureList mt g ratio items
    let gapS := (jsOrQ gap 0) * ratio
    let n : ℚ := measuredItems.length
    if layout = "row" then
      .group layout measuredItems
        (JsNum.add (jsSum (measuredItems.map MeasuredNode.renderW)) (.fin ((n - 1) * gapS)))
        (jsMaxL (measuredItems.map MeasuredNode.renderH)) gapS
    else
      .group layout measuredItems
        (jsMaxL (measuredItems.map MeasuredNode.renderW))
        (JsNum.add (jsSum (measuredItems.map MeasuredNode.renderH)) (.fin ((n - 1) * gapS)))
        gapS

/-- `items.map((item) => this.measure(ctx, item, globalOptions, ratio))`. -/
def measureList (mt : String → String → ℚ) (g : WatermarkOptions) (ratio : ℚ) :
    List WatermarkContent → List MeasuredNode
  | [] => []
  | x :: xs => measure mt g ratio x :: measureList mt g ratio xs

end

end LayoutEngine

/-! ## Text normalization (`LayoutEngine.normalize` / `_normalizeText`)

JS `String.replace` with a global regex scans left to right, replacing the
leftmost match at each position and continuing after it; this is embedded
as direct recursion over the character list. -/

/-- JS regex `\s` character class (whitespace, including line breaks and
the Unicode space separators). -/
def isJsWs (c : Char) : Bool :=
  c = ' ' || c = '\t' || c = '\n' || c = '\r' ||
  c.val = 0x0B || c.val = 0x0C || c.val = 0xA0 || c.val = 0x1680 ||
  (0x2000 ≤ c.val && c.val ≤ 0x200A) || c.val = 0x2028 || c.val = 0x2029 ||
  c.val = 0x202F || c.val = 0x205F || c.val = 0x3000 || c.val = 0xFEFF

/-- Consume the (greedy) `\s*` part of `<br\s*\/?>`. -/
def skipWs : List Char → List Char
  | [] => []
  | c :: rest => if isJsWs c then skipWs rest else c :: rest

/-- Consume the `\/?>` tail of `<br\s*\/?>`; returns the remainder after
the match, or `none` when the tag does not close here. -/
def afterSlashGt : List Char → Option (List Char)
  | [] => none
  | [c] => if c = '>' then some [] else none
  | c :: c2 :: rest2 =>
    if c = '/' then (if c2 = '>' then some rest2 else none)
    else if c = '>' then some (c2 :: rest2)
    else none

/-- Try to match `/<br\s*\/?>/i` at the head of the list; on success
return the remainder after the match. -/
def tryBr : List Char → Option (List Char)
  | c1 :: c2 :: c3 :: rest =>
    if c1 = '<' ∧ (c2 = 'b' ∨ c2 = 'B') ∧ (c3 = 'r' ∨ c3 = 'R') then
      afterSlashGt (skipWs rest)
    else none
  | _ => none

theorem skipWs_length_le (l : List Char) : (skipWs l).length ≤ l.length := by
  induction l with
  | nil => simp [skipWs]
  | cons c rest ih =>
    simp only [skipWs]
    split
    · exact Nat.le_succ_of_le ih
    · exact Nat.le_refl _

theorem afterSlashGt_length_lt (l r : List Char) (h : afterSlashGt l = some r) :
    r.length < l.length := by
  match l with
  | [] => simp [afterSlashGt] at h
  | [c] =>
    simp only [afterSlashGt] at h
    split at h
    · simp only [Option.some.injEq] at h
      subst h; simp
    · simp at h
  | c :: c2 :: rest2 =>
    simp only [afterSlashGt] at h
    split at h
    · split at h
      · simp only [Option.some.injEq] at h
        subst h; simp only [List.length_cons]; omega
      · simp at h
    · split at h
      · simp only [Option.some.injEq] at h
        subst h; simp only [List.length_cons]; omega
      · simp at h

theorem tryBr_length_lt (l r : List Char) (h : tryBr l = some r) :
    r.length < l.length := by
  match l with
  | [] => simp [tryBr] at h
  | [c1] => simp [tryBr] at h
  | [c1, c2] => simp [tryBr] at h
  | c1 :: c2 :: c3 :: rest =>
    simp only [tryBr] at h
    split at h
    · have h1 := afterSlashGt_length_lt _ _ h
      have h2 := skipWs_length_le rest
      simp only [List.length_cons]
      omega
    · simp at h

theorem tryBr_none_of_ne (c : Char) (rest : List Char) (hc : c ≠ '<') :
    tryBr (c :: rest) = none := by
  match rest with
  | [] => rfl
  | [c2] => rfl
  | c2 :: c3 :: rest2 =>
    simp only [tryBr]
    split
    · rename_i hcond
      exact absurd hcond.1 hc
    · rfl

/-- `.replace(/<br\s*\/?>/gi, '\n')`: replace every break tag by a
newline, scanning left to right. -/
def brReplace (l : List Char) : List Char :=
  match l with
  | [] => []
  | c :: rest =>
    match h : tryBr (c :: rest) with
    | some rest2 => '\n' :: brReplace rest2
    | none => c :: brReplace rest
termination_by l.length
decreasing_by
  · exact tryBr_length_lt _ _ h
  · simp

/-- `.replace(/\r\n/g, '\n')`: collapse every CRLF pair into a newline,
scanning left to right. -/
def crlfReplace : List Char → List Char
  | [] => []
  | [c] => [c]
  | c :: c2 :: rest2 =>
    if c = '\r' then
      if c2 = '\n' then '\n' :: crlfReplace rest2
      else c :: crlfReplace (c2 :: rest2)
    else c :: crlfReplace (c2 :: rest2)

/-- `rawText.split('\n')` on a character list. -/
def splitNl : List Char → List (List Char)
  | [] => [[]]
  | c :: rest =>
    if c = '\n' then [] :: splitNl rest
    else
      match splitNl rest with
      | [] => [[c]]
      | p :: ps => (c :: p) :: ps

/-- Number of line-break markers in a string, scanning left to right: a
break tag `<br>`/`<br/>`/`<br />` in any casing (matched exactly like the
replacement regex), a CRLF pair, or a bare newline, each count as one
marker. -/
def countMarkers (l : List Char) : ℕ :=
  match l with
  | [] => 0
  | c :: rest =>
    match h : tryBr (c :: rest) with
    | some rest2 => 1 + countMarkers rest2
    | none =>
      if c = '\n' then 1 + countMarkers rest
      else if c = '\r' then
        match rest with
        | [] => 0
        | c2 :: rest2 =>
          if c2 = '\n' then 1 + countMarkers rest2
          else countMarkers (c2 :: rest2)
      else countMarkers rest
termination_by l.length
decreasing_by
  all_goals first
  | exact tryBr_length_lt _ _ h
  | (simp only [List.length_cons]; omega)

namespace LayoutEngine

/-- `LayoutEngine._normalizeText(text, style, parentGap)`: normalize break
tags and CRLF to `\n`; with no newline present return a single text node
carrying the style and the normalized text, otherwise split into a column
group with the parent's gap whose children are single-line text nodes
carrying the style. -/
def normalizeText (text : String) (style : TextStyle) (parentGap : ℚ) :
    WatermarkContent :=
  let raw := crlfReplace (brReplace text.data)
  if '\n' ∈ raw then
    .group "column" (some parentGap)
      ((splitNl raw).map fun line => .text style (String.mk line))
  else .text style (String.mk raw)

/-- `LayoutEngine._resolveGap` for the scalar form (`gap || 0`); the
`[x, y]` array form resolves to its first component. -/
def resolveGap (gap : Option ℚ) : ℚ := jsOrQ gap 0

/-- Input union of `LayoutEngine.normalize`:
`string | WatermarkContentItem[] | WatermarkContent | undefined`. -/
inductive NormInput where
  | undef
  | str (s : String)
  | arr (items : List WatermarkContent)
  | node (c : WatermarkContent)

mutual

/-- Object branch of `LayoutEngine.normalize`: text nodes re-run
`_normalizeText` with their own style, groups recursively normalize their
children propagating this level's resolved gap, images pass through. -/
def normalizeC : WatermarkContent → ℚ → WatermarkContent
  | .text st t, inheritedGap => normalizeText t st inheritedGap
  | .group layout gap items, _ =>
    .group layout gap (normalizeCList items (resolveGap gap))
  | .image src w h r, _ => .image src w h r

/-- `(content.items || []).map((item) => this.normalize(item, gap))`. -/
def normalizeCList : List WatermarkContent → ℚ → List WatermarkContent
  | [], _ => []
  | x :: xs, g => normalizeC x g :: normalizeCList xs g

end

/-- `LayoutEngine.normalize(content, inheritedGap)`: falsy content
(`undefined` or the empty string) yields an empty text node, arrays become
column groups with the inherited gap, strings run `_normalizeText` with an
empty style, objects dispatch on their tag. -/
def normalize : NormInput → ℚ → WatermarkContent
  | .undef, _ => .text {} ""
  | .str s, g => if s = "" then .text {} "" else normalizeText s {} g
  | .arr items, g => .group "column" (some g) (normalizeCList items g)
  | .node c, g => normalizeC c g

end LayoutEngine

/-! ## Scroll observer selection
(src/packages/scroll-observer/src/index.ts, `_handleScroll` / `targetRatio`) -/

/-- Vertical geometry of `getBoundingClientRect()` for a child element. -/
structure RectQ where
  top : ℚ
  height : ℚ
deriving DecidableEq, Repr

/-- Default rect used only to express list indexing (`List.getD`) in
specifications; all indices used are in range. -/
def dfltRect : RectQ := ⟨0, 0⟩

/-- `layers[i]`: an out-of-range read yields `undefined`, which behaves
exactly like `NaN` in every arithmetic position it reaches here
(`x + undefined` and `undefined / 2` are both `NaN`). -/
def jsIndex (layers : List ℚ) (i : ℕ) : JsNum :=
  if h : i < layers.length then .fin (layers.get ⟨i, h⟩) else .nan

namespace ScrollObserver

/-- `ScrollObserver.targetRatio`: focus-line position as a fraction of the
container height. `layered?.length ? layered : [45,10,45]` (an empty array
is falsy), `startIndex !== undefined ? startIndex : floor(len/2)`,
`centerCoordinate || 'center'`; the offset accumulates `layers[i]` for
`i < startIndex` and the focus layer is `layers[startIndex]`, so an
out-of-range `startIndex` injects `undefined` into the arithmetic and the
ratio becomes `NaN` (except in the `'top'` case at exactly
`startIndex = layers.length`, where the addition stays `0`). -/
def targetRatio (layered : Option (List ℚ)) (startIndex : Option ℕ)
    (centerCoordinate : Option String) : JsNum :=
  let layers :=
    match layered with
    | some l => if l.length = 0 then [45, 10, 45] else l
    | none => [45, 10, 45]
  let si :=
    match startIndex with
    | some i => i
    | none => layers.length / 2
  let cc := jsOrStr centerCoordinate "center"
  let offsetPercent := (List.range si).foldl
    (fun acc i => JsNum.add acc (jsIndex layers i)) (.fin 0)
  let currentLayerPercent := jsIndex layers si
  let addition : JsNum :=
    if cc = "bottom" then currentLayerPercent
    else if cc = "center" then JsNum.divQ currentLayerPercent 2
    else .fin 0
  JsNum.divQ (JsNum.add offsetPercent addition) 100

/-- Vertical center of a child: `itemRect.top + itemRect.height / 2`. -/
def centerY (r : RectQ) : ℚ := r.top + r.height / 2

/-- `Math.abs(targetLineY - itemCenterY)` for a child rect; the rect's
fields are finite numbers, but the focus line may be `NaN`, in which case
the distance is `NaN`. -/
def distToJ (line : JsNum) (r : RectQ) : JsNum :=
  JsNum.absJ (JsNum.subJ line (.fin (centerY r)))

/-- `Math.abs(targetLineY - itemCenterY)` when the focus line is an
actual number. -/
def distTo (line : ℚ) (r : RectQ) : ℚ := |line - centerY r|

/-- The `items.forEach` loop of `_handleScroll`: walk the children with
their indices, keeping the first item whose distance to the focus line is
strictly below the running minimum (`minDistance` starts at `Infinity`;
a `NaN` distance is never below it, so a `NaN` focus line selects
nothing). -/
def scanItems (line : JsNum) (best : Option (ℕ × RectQ)) (minD : JsNum)
    (k : ℕ) : List RectQ → Option (ℕ × RectQ)
  | [] => best
  | r :: rs =>
    if JsNum.ltJ (distToJ line r) minD then
      scanItems line (some (k, r)) (distToJ line r) (k + 1) rs
    else scanItems line best minD (k + 1) rs

/-- `ScrollObserver._handleScroll` selection: the focus line sits at
`containerRect.top + containerRect.height * targetRatio`; the result is
the payload passed to `onScrollCenter` (`none` when no child was selected,
in which case the callback is not invoked). -/
def handleScroll (cTop cHeight : ℚ) (layered : Option (List ℚ))
    (startIndex : Option ℕ) (centerCoordinate : Option String)
    (rects : List RectQ) : Option (ℕ × RectQ) :=
  scanItems
    (JsNum.add (.fin cTop)
      (JsNum.mulJ (.fin cHeight)
        (targetRatio layered startIndex centerCoordinate)))
    none .posInf 0 rects

end ScrollObserver

/-! ## VisibilityObserver one-shot initialization
(src/packages/scroll-observer/src/index.ts, `_startObserve`) -/

/-- Observer state of a `VisibilityObserver`: the `initialized` flag, the
liveness of the IntersectionObserver (`io`) and MutationObserver (`mo`)
handles, and the number of `onInit` invocations so far. -/
structure VisState where
  initialized : Bool
  ioActive : Bool
  moActive : Bool
  initCount : ℕ
deriving DecidableEq, Repr

namespace VisibilityObserver

/-- Processing of one entry inside the `entries.forEach` loop: on an
intersecting entry with the instance not yet initialized, set the flag,
invoke `onInit` (counted), `unobserve` the element and `disconnect()`
both watchers; otherwise do nothing. -/
def handleEntry (s : VisState) (isIntersecting : Bool) : VisState :=
  if isIntersecting && !s.initialized then
    { initialized := true, ioActive := false, moActive := false,
      initCount := s.initCount + 1 }
  else s

/-- One IntersectionObserver callback: `entries.forEach(...)`. -/
def handleEntries (s : VisState) (entries : List Bool) : VisState :=
  entries.foldl handleEntry s

/-- Browser delivery of one batch of entries: a disconnected observer
receives no further callbacks. -/
def deliver (s : VisState) (batch : List Bool) : VisState :=
  if s.ioActive then handleEntries s batch else s

/-- State right after `_startObserve` wired the IntersectionObserver; the
mutation observer may or may not still be live depending on whether the
element was found by selector. -/
def startState (moActive : Bool) : VisState :=
  { initialized := false, ioActive := true, moActive := moActive,
    initCount := 0 }

/-- A whole sequence of entry batches delivered over the instance's
lifetime. -/
def run (s : VisState) (batches : List (List Bool)) : VisState :=
  batches.foldl deliver s

/-- Invariant: `onInit` ran exactly once iff the flag is set, and once
initialized both watchers are disconnected. -/
def VisInv (s : VisState) : Prop :=
  s.initCount = (if s.initialized then 1 else 0) ∧
  (s.initialized = true → s.ioActive = false ∧ s.moActive = false)

end VisibilityObserver

/-! ## ScrollObserver activation (src/packages/scroll-observer/src/index.ts,
`_init` / `_onScrollOrResize`) -/

/-- Active-phase state of a `ScrollObserver`: whether the scroll/resize
listeners were attached by `_init`, whether an animation frame is pending,
how many elements currently match the child selector, and how many times
`onScrollCenter` has been invoked. -/
structure SoState where
  attached : Bool
  rafPending : Bool
  childCount : ℕ
  cbCount : ℕ
deriving DecidableEq, Repr

namespace ScrollObserver

/-- Effect of one `_handleScroll` run on the callback count: `closestItem`
is set exactly when the match list is non-empty, and the callback fires
when additionally `onScrollCenter` was supplied. -/
def handleScrollCb (hasCb : Bool) (s : SoState) : SoState :=
  if s.childCount ≠ 0 && hasCb then { s with cbCount := s.cbCount + 1 }
  else s

/-- `_init()`: return before doing anything when no element matches the
child selector; otherwise run `_handleScroll` once and attach the scroll
and resize listeners. -/
def initStep (hasCb : Bool) (s : SoState) : SoState :=
  if s.childCount = 0 then s
  else { handleScrollCb hasCb s with attached := true }

/-- Events after `_init` ran: DOM mutations adding matching children,
scroll/resize events, and animation-frame callbacks. -/
inductive SoEvent where
  | addChildren (n : ℕ)
  | scroll
  | resize
  | rafFire

/-- Event semantics: scroll/resize reach `_onScrollOrResize` only while
the listeners are attached (it cancels and replaces the single pending
frame); a frame fire runs `_handleScroll` when a request is pending;
adding children changes only the match count. Nothing ever re-runs
`_init` (the `VisibilityObserver` that invokes it is one-shot). -/
def soStep (hasCb : Bool) (s : SoState) : SoEvent → SoState
  | .addChildren n => { s with childCount := s.childCount + n }
  | .scroll => if s.attached then { s with rafPending := true } else s
  | .resize => if s.attached then { s with rafPending := true } else s
  | .rafFire =>
    if s.rafPending then handleScrollCb hasCb { s with rafPending := false }
    else s

def soRun (hasCb : Bool) (s : SoState) (evs : List SoEvent) : SoState :=
  evs.foldl (soStep hasCb) s

/-- State at the moment the container first became visible with no element
matching the child selector. -/
def soEmptyStart : SoState :=
  { attached := false, rafPending := false, childCount := 0, cbCount := 0 }

/-- Invariant for a `ScrollObserver` whose `_init` bailed out: no
listeners, no pending frame, no callback ever invoked. -/
def SoIdle (s : SoState) : Prop :=
  s.attached = false ∧ s.rafPending = false ∧ s.cbCount = 0

end ScrollObserver

/-! ## Watermark facade (src/packages/watermark.js/src/index.js)

The DOM is modelled by the container's direct child list; each element
carries its `id` attribute and a numeric node identity (reference
equality). The overlay is always appended as a direct child, so
`querySelector('#id')` is modelled as the first direct child carrying the
id. -/

/-- A DOM element: its `id` attribute and its object identity. -/
structure Elem where
  idAttr : String
  nodeId : ℕ
deriving DecidableEq, Repr

/-- The facade options consumed by the claims: overlay element id and the
monitor flag. -/
structure WmOptions where
  id : String
  monitor : Bool
deriving DecidableEq, Repr

/-- A partial options object passed to `apply` (absent fields keep the
current value under `{ ...this.options, ...options }`). -/
structure WmPatch where
  id : Option String := none
  monitor : Option Bool := none
deriving DecidableEq, Repr

/-- `{ ...this.options, ...options }`: last-write-wins merge. -/
def mergeOpts (o : WmOptions) (p : WmPatch) : WmOptions :=
  { id := p.id.getD o.id, monitor := p.monitor.getD o.monitor }

/-- Instance state of the `Watermark` class plus the container's DOM
child list. `watermarkDom` is the node identity held in
`this.watermarkDom`; `pendingDebounceMs` is the delay of the scheduled
tamper re-render timer, when one is pending. -/
structure WmState where
  options : WmOptions
  hasContainer : Bool
  containerChildren : List Elem
  watermarkDom : Option ℕ
  observerActive : Bool
  resizeActive : Bool
  pendingDebounceMs : Option ℕ
  nextNodeId : ℕ
deriving DecidableEq, Repr

namespace Watermark

/-- `container.querySelector('#'+id)` followed by `removeChild`: drop the
first child carrying the id. -/
def removeFirstById (i : String) : List Elem → List Elem
  | [] => []
  | e :: rest => if e.idAttr = i then rest else e :: removeFirstById i rest

/-- `stopMonitor()`: disconnect and drop the MutationObserver. -/
def stopMonitor (s : WmState) : WmState := { s with observerActive := false }

/-- `startMonitor()`: `if (this.observer) return`, else observe. -/
def startMonitor (s : WmState) : WmState :=
  if s.observerActive then s else { s with observerActive := true }

/-- `startResizeObserver()`: `if (this.resizeObserver) return`, else
observe the container. -/
def startResizeObserver (s : WmState) : WmState :=
  if s.resizeActive then s else { s with resizeActive := true }

/-- `render()`: pause the observer, remove any existing overlay by id,
create and append a fresh overlay div (a new node identity), then restore
the observer when monitoring is enabled. -/
def render (s : WmState) : WmState :=
  let s1 := stopMonitor s
  let s2 := { s1 with
    containerChildren :=
      removeFirstById s1.options.id s1.containerChildren
        ++ [⟨s1.options.id, s1.nextNodeId⟩],
    watermarkDom := some s1.nextNodeId,
    nextNodeId := s1.nextNodeId + 1 }
  if s2.options.monitor then startMonitor s2 else s2

/-- A MutationObserver record: a childList change with removed nodes, or
an attribute change on a target node. -/
inductive Mutation where
  | childListRemoved (nodes : List ℕ)
  | attrChanged (target : ℕ)

/-- The observer callback wired by `startMonitor`: scan the records for a
removal of the overlay node (`node === this.watermarkDom`) or an
attribute mutation targeting it; if found, clear any previous timer and
schedule the debounced re-render with the fixed 100 ms delay. The browser
delivers records only while the observer is connected. -/
def observerCallback (s : WmState) (muts : List Mutation) : WmState :=
  if s.observerActive then
    let needRender := muts.any fun m =>
      match m with
      | .childListRemoved ns =>
        match s.watermarkDom with
        | some w => ns.contains w
        | none => false
      | .attrChanged t => s.watermarkDom == some t
    if needRender then { s with pendingDebounceMs := some 100 } else s
  else s

/-- The scheduled debounce timer fires: `render()` runs. -/
def debounceFire (s : WmState) : WmState :=
  match s.pendingDebounceMs with
  | some _ => render { s with pendingDebounceMs := none }
  | none => s

/-- External tampering: a script removes the overlay node (identified by
object identity) from the container. -/
def externalRemove (n : ℕ) (s : WmState) : WmState :=
  { s with containerChildren :=
      s.containerChildren.filter (fun e => e.nodeId ≠ n) }

/-- `destroy()`: stop the mutation and resize observers, remove the
overlay when `this.watermarkDom` is set and the container still contains
it, and clear the reference. The result is `none` exactly where the JS
code would throw: `this.container.contains` on a `null` container with a
stale overlay reference (not reachable through the documented
lifecycle). -/
def destroy (s : WmState) : Option WmState :=
  let s1 := { s with observerActive := false, resizeActive := false }
  match s1.watermarkDom with
  | none => some s1
  | some w =>
    if s1.hasContainer then
      some { s1 with
        containerChildren :=
          s1.containerChildren.filter (fun e => e.nodeId ≠ w),
        watermarkDom := none }
    else none

/-- `apply(options)`: merge the options, resolve the mount container
(`document.body` when no `el` is given), log a console error and abort
when the selector resolves to nothing; otherwise adopt the container,
render, start monitoring when enabled and start the resize observer.
`elGiven` is the truthiness of `options.el`; `resolved` is the
`querySelector` result carrying the found container's children;
`bodyChildren` are `document.body`'s children. The returned list is the
console error log of the call. -/
def apply (s : WmState) (p : WmPatch) (elGiven : Bool)
    (resolved : Option (List Elem)) (bodyChildren : List Elem) :
    WmState × List String :=
  let s1 := { s with options := mergeOpts s.options p }
  let container := if elGiven then resolved else some bodyChildren
  match container with
  | none =>
    ({ s1 with hasContainer := false },
     ["Watermark: Mount element not found."])
  | some ch =>
    let s2 := { s1 with hasContainer := true, containerChildren := ch }
    let s3 := render s2
    let s4 := if s3.options.monitor then startMonitor s3 else s3
    (startResizeObserver s4, [])

end Watermark

/-! ## Canvas drawer (`CanvasDrawer.generate`, src/unnamed/part_000) -/

/-- The `gap` option: a scalar or an `[x, y]` pair
(`Array.isArray(gap) ? gap : [gap, gap]`). An `undefined` gap would
propagate `NaN` in JS and is outside the model (the facade always
supplies one). -/
inductive GapOpt where
  | one (g : ℚ)
  | two (x y : ℚ)
deriving DecidableEq, Repr

/-- `const [gx, gy] = (...).map((n) => n * ratio)`. -/
def gapXY (gap : GapOpt) (ratio : ℚ) : ℚ × ℚ :=
  match gap with
  | .one g => (g * ratio, g * ratio)
  | .two x y => (x * ratio, y * ratio)

namespace CanvasDrawer

/-- `const angle = ((rotate || -20) * Math.PI) / 180` (`0` is falsy, so a
zero rotation falls back to the −20° default). Trigonometry is exact real
arithmetic standing in for IEEE doubles. -/
noncomputable def angleOf (rotate : Option ℚ) : ℝ :=
  ((jsOrQ rotate (-20) : ℚ) : ℝ) * Real.pi / 180

/-- The canvas extent allocated by `generate`:
`Math.abs(cos(angle) * W) + Math.abs(sin(angle) * H)` by
`Math.abs(sin(angle) * W) + Math.abs(cos(angle) * H)`, plus the
ratio-scaled tile gaps only when `layout === 'repeat'`. `W`/`H` are the
measured tree's render extents. -/
noncomputable def canvasSize (rotate : Option ℚ) (gap : GapOpt)
    (layout : Option String) (ratio : ℚ) (W H : ℝ) : ℝ × ℝ :=
  let g := gapXY gap ratio
  let angle := angleOf rotate
  (|Real.cos angle * W| + |Real.sin angle * H| +
     (if layout = some "repeat" then (g.1 : ℝ) else 0),
   |Real.sin angle * W| + |Real.cos angle * H| +
     (if layout = some "repeat" then (g.2 : ℝ) else 0))

end CanvasDrawer

/-! ## Theorems -/

theorem LayoutEngine.measureList_eq_map (mt : String → String → ℚ)
    (g : WatermarkOptions) (ratio : ℚ) (l : List WatermarkContent) :
    measureList mt g ratio l = l.map (measure mt g ratio) := by
  induction l with
  | nil => rfl
  | cons x xs ih => simp [measureList, ih]

theorem countMarkers_nil : countMarkers [] = 0 := by
  rw [countMarkers]

theorem brReplace_nil : brReplace [] = [] := by
  rw [brReplace]

theorem countMarkers_some (c : Char) (rest rest2 : List Char)
    (h : tryBr (c :: rest) = some rest2) :
    countMarkers (c :: rest) = 1 + countMarkers rest2 := by
  rw [countMarkers]
  split
  · rename_i rest3 heq
    rw [h] at heq
    injection heq with he
    rw [he]
  · rename_i heq
    rw [h] at heq
    exact absurd heq (by simp)

theorem brReplace_some (c : Char) (rest rest2 : List Char)
    (h : tryBr (c :: rest) = some rest2) :
    brReplace (c :: rest) = '\n' :: brReplace rest2 := by
  rw [brReplace]
  split
  · rename_i rest3 heq
    rw [h] at heq
    injection heq with he
    rw [he]
  · rename_i heq
    rw [h] at heq
    exact absurd heq (by simp)

theorem brReplace_none (c : Char) (rest : List Char)
    (h : tryBr (c :: rest) = none) :
    brReplace (c :: rest) = c :: brReplace rest := by
  rw [brReplace]
  split
  · rename_i rest3 heq
    rw [h] at heq
    exact absurd heq (by simp)
  · rfl

theorem countMarkers_nl (rest : List Char) :
    countMarkers ('\n' :: rest) = 1 + countMarkers rest := by
  rw [countMarkers]
  split
  · rename_i rest3 heq
    rw [tryBr_none_of_ne _ _ (by decide)] at heq
    exact absurd heq (by simp)
  · simp

theorem countMarkers_cr_nil : countMarkers ['\x0d'] = 0 := by
  rw [countMarkers]
  split
  · rename_i rest3 heq
    rw [tryBr_none_of_ne _ _ (by decide)] at heq
    exact absurd heq (by simp)
  · simp

theorem countMarkers_crlf (rest2 : List Char) :
    countMarkers ('\x0d' :: '\n' :: rest2) = 1 + countMarkers rest2 := by
  rw [countMarkers]
  split
  · rename_i rest3 heq
    rw [tryBr_none_of_ne _ _ (by decide)] at heq
    exact absurd heq (by simp)
  · simp

theorem countMarkers_cr (c2 : Char) (rest2 : List Char) (h2 : c2 ≠ '\n') :
    countMarkers ('\x0d' :: c2 :: rest2) = countMarkers (c2 :: rest2) := by
  rw [countMarkers]
  split
  · rename_i rest3 heq
    rw [tryBr_none_of_ne _ _ (by decide)] at heq
    exact absurd heq (by simp)
  · simp [h2]

theorem countMarkers_other (c : Char) (rest : List Char)
    (h : tryBr (c :: rest) = none) (h1 : c ≠ '\n') (h2 : c ≠ '\x0d') :
    countMarkers (c :: rest) = countMarkers rest := by
  rw [countMarkers]
  split
  · rename_i rest3 heq
    rw [h] at heq
    exact absurd heq (by simp)
  · simp [h1, h2]

theorem brReplace_count (l : List Char) :
    (brReplace l).count '\n' = countMarkers l := by
  induction l using countMarkers.induct with
  | case1 => rw [brReplace_nil, countMarkers_nil]; rfl
  | case2 c rest rest2 heq ih =>
    rw [brReplace_some _ _ _ heq, countMarkers_some _ _ _ heq]
    simp [List.count_cons, ih]
    omega
  | case3 rest heq ih =>
    rw [brReplace_none _ _ heq, countMarkers_nl]
    simp [List.count_cons, ih]
    omega
  | case4 =>
    rw [brReplace_none _ _ (tryBr_none_of_ne _ _ (by decide)), brReplace_nil,
      countMarkers_cr_nil]
    simp
  | case5 rest2 hne heq heq2 ih =>
    rw [brReplace_none _ _ heq,
      brReplace_none _ _ (tryBr_none_of_ne _ _ (by decide)),
      countMarkers_crlf]
    simp [List.count_cons, ih]
    omega
  | case6 c2 rest2 h2 hne heq heq2 ih =>
    rw [brReplace_none _ _ heq, countMarkers_cr _ _ h2]
    simp [List.count_cons, ih]
  | case7 c rest heq h1 h2 ih =>
    rw [brReplace_none _ _ heq, countMarkers_other _ _ heq h1 h2]
    simp [List.count_cons, ih, h1]

theorem crlfReplace_count (l : List Char) :
    (crlfReplace l).count '\n' = l.count '\n' := by
  induction l using crlfReplace.induct <;>
    simp_all [crlfReplace, List.count_cons]

theorem crlfReplace_eq_of_cm_zero (l : List Char) :
    countMarkers l = 0 → crlfReplace l = l := by
  induction l using crlfReplace.induct with
  | case1 => intro _; rw [crlfReplace]
  | case2 c => intro _; rw [crlfReplace]
  | case3 rest2 ih =>
    intro h
    rw [countMarkers_crlf] at h
    omega
  | case4 c2 rest2 hc2 ih =>
    intro h
    rw [countMarkers_cr _ _ hc2] at h
    rw [crlfReplace]
    simp [hc2, ih h]
  | case5 c c2 rest2 hc ih =>
    intro h
    have hrest : countMarkers (c2 :: rest2) = 0 := by
      rcases htb : tryBr (c :: c2 :: rest2) with _ | rest3
      · by_cases hn : c = '\n'
        · subst hn; rw [countMarkers_nl] at h; omega
        · rwa [countMarkers_other _ _ htb hn hc] at h
      · rw [countMarkers_some _ _ _ htb] at h; omega
    rw [crlfReplace]
    simp [hc, ih hrest]

theorem brReplace_eq_of_cm_zero (l : List Char) :
    countMarkers l = 0 → brReplace l = l := by
  induction l using countMarkers.induct with
  | case1 => intro _; rw [brReplace_nil]
  | case2 c rest rest2 heq ih =>
    intro h; rw [countMarkers_some _ _ _ heq] at h; omega
  | case3 rest heq ih =>
    intro h; rw [countMarkers_nl] at h; omega
  | case4 =>
    intro _
    rw [brReplace_none _ _ (tryBr_none_of_ne _ _ (by decide)), brReplace_nil]
  | case5 rest2 hne heq heq2 ih =>
    intro h; rw [countMarkers_crlf] at h; omega
  | case6 c2 rest2 h2 hne heq heq2 ih =>
    intro h
    rw [countMarkers_cr _ _ h2] at h
    rw [brReplace_none _ _ heq, ih h]
  | case7 c rest heq h1 h2 ih =>
    intro h
    rw [countMarkers_other _ _ heq h1 h2] at h
    rw [brReplace_none _ _ heq, ih h]

theorem splitNl_ne_nil (l : List Char) : splitNl l ≠ [] := by
  induction l with
  | nil => simp [splitNl]
  | cons c rest ih =>
    simp only [splitNl]
    split
    · simp
    · split
      · simp
      · simp

theorem splitNl_length (l : List Char) :
    (splitNl l).length = l.count '\n' + 1 := by
  induction l with
  | nil => simp [splitNl]
  | cons c rest ih =>
    simp only [splitNl]
    split
    · rename_i hc
      simp [List.count_cons, hc, ih]
    · rename_i hc
      split
      · rename_i hsp
        exact absurd hsp (splitNl_ne_nil rest)
      · rename_i p ps hsp
        rw [hsp] at ih
        simp only [List.length_cons] at ih
        simp [List.count_cons, hc]
        omega

/-- C5: For every input string containing `N` line-break markers (a bare
newline, a CRLF pair, or an HTML break tag in any casing/spacing variant,
counted left to right by `countMarkers` exactly as the replacement regexes
match), `_normalizeText` returns a column group with exactly `N + 1` text
children, each carrying the original node's style attributes, with the
group's gap equal to the gap inherited from the parent; for a string with
no such markers it returns a single text node with that exact string. -/
theorem normalizeText_line_break_split (s : String) (st : TextStyle)
    (parentGap : ℚ) :
    (countMarkers s.data = 0 →
      LayoutEngine.normalizeText s st parentGap = .text st s) ∧
    (0 < countMarkers s.data →
      ∃ lines : List String, lines.length = countMarkers s.data + 1 ∧
        LayoutEngine.normalizeText s st parentGap =
          .group "column" (some parentGap)
            (lines.map fun line => .text st line)) := by
  have hcount : (crlfReplace (brReplace s.data)).count '\n'
      = countMarkers s.data := by
    rw [crlfReplace_count, brReplace_count]
  constructor
  · intro h
    have hmem : '\n' ∉ crlfReplace (brReplace s.data) := by
      rw [← List.count_eq_zero, hcount, h]
    simp only [LayoutEngine.normalizeText]
    rw [if_neg hmem, brReplace_eq_of_cm_zero _ h, crlfReplace_eq_of_cm_zero _ h]
  · intro h
    have hmem : '\n' ∈ crlfReplace (brReplace s.data) := by
      by_contra hn
      rw [← List.count_eq_zero] at hn
      omega
    simp only [LayoutEngine.normalizeText]
    rw [if_pos hmem]
    refine ⟨(splitNl (crlfReplace (brReplace s.data))).map (fun l => String.mk l),
      ?_, ?_⟩
    · rw [List.length_map, splitNl_length, hcount]
    · simp [List.map_map]

/-- Witness for C5 at the concrete input `"a<br>b\nc"` (two markers: one
break tag, one raw newline). -/
theorem normalizeText_line_break_split_witness :
    0 < countMarkers ("a<br>b\nc").data ∧
    (∃ lines : List String,
      lines.length = countMarkers ("a<br>b\nc").data + 1 ∧
        LayoutEngine.normalizeText "a<br>b\nc" {} 3 =
          .group "column" (some 3)
            (lines.map fun line => WatermarkContent.text {} line)) :=
  ⟨by simp [countMarkers_other, countMarkers_some, countMarkers_nl,
      countMarkers_crlf, countMarkers_cr, countMarkers_cr_nil, countMarkers_nil,
      tryBr, afterSlashGt, skipWs, isJsWs],
   (normalizeText_line_break_split "a<br>b\nc" {} 3).2
     (by simp [countMarkers_other, countMarkers_some, countMarkers_nl,
       countMarkers_crlf, countMarkers_cr, countMarkers_cr_nil, countMarkers_nil,
       tryBr, afterSlashGt, skipWs, isJsWs])⟩

/-- C1: For every group node with at least one child, `LayoutEngine.measure`
returns extents satisfying: for layout `row`, `_renderWidth` is the sum of
the children's measured widths plus `(count − 1) ×` the group's gap scaled
by `ratio`, and `_renderHeight` is the max of the children's measured
heights; for `column` layout, `_renderWidth` is the max of the children's
measured widths and `_renderHeight` is the sum of the children's measured
heights plus `(count − 1) ×` the scaled gap. -/
theorem measure_group_extents (mt : String → String → ℚ) (g : WatermarkOptions)
    (ratio : ℚ) (layout : String) (gap : Option ℚ)
    (items : List WatermarkContent) (_hne : items ≠ []) :
    let m := LayoutEngine.measure mt g ratio (.group layout gap items)
    let mi := items.map (LayoutEngine.measure mt g ratio)
    let gapS := (jsOrQ gap 0) * ratio
    (layout = "row" →
      m.renderW = JsNum.add (jsSum (mi.map MeasuredNode.renderW))
          (.fin (((items.length : ℚ) - 1) * gapS)) ∧
      m.renderH = jsMaxL (mi.map MeasuredNode.renderH)) ∧
    (layout = "column" →
      m.renderW = jsMaxL (mi.map MeasuredNode.renderW) ∧
      m.renderH = JsNum.add (jsSum (mi.map MeasuredNode.renderH))
          (.fin (((items.length : ℚ) - 1) * gapS))) := by
  refine ⟨fun hrow => ?_, fun hcol => ?_⟩
  · subst hrow
    simp [LayoutEngine.measure, LayoutEngine.measureList_eq_map,
      MeasuredNode.renderW, MeasuredNode.renderH]
  · subst hcol
    simp [LayoutEngine.measure, LayoutEngine.measureList_eq_map,
      MeasuredNode.renderW, MeasuredNode.renderH]

/-- Witness for C1 at a concrete input: a row group with two text children
(text widths measured by the oracle as 7). -/
theorem measure_group_extents_witness :
    ([WatermarkContent.text {} "a", .text {} "b"] : List WatermarkContent) ≠ [] ∧
    (let mt : String → String → ℚ := fun _ _ => 7
     let items : List WatermarkContent := [.text {} "a", .text {} "b"]
     let m := LayoutEngine.measure mt {} 1 (.group "row" (some 4) items)
     let mi := items.map (LayoutEngine.measure mt {} 1)
     let gapS := (jsOrQ (some 4) 0) * 1
     ("row" = "row" →
      m.renderW = JsNum.add (jsSum (mi.map MeasuredNode.renderW))
          (.fin (((items.length : ℚ) - 1) * gapS)) ∧
      m.renderH = jsMaxL (mi.map MeasuredNode.renderH)) ∧
    ("row" = "column" →
      m.renderW = jsMaxL (mi.map MeasuredNode.renderW) ∧
      m.renderH = JsNum.add (jsSum (mi.map MeasuredNode.renderH))
          (.fin (((items.length : ℚ) - 1) * gapS)))) :=
  ⟨by simp, measure_group_extents (fun _ _ => 7) {} 1 "row" (some 4)
      [.text {} "a", .text {} "b"] (by simp)⟩

/-- C2 (refuted): `LayoutEngine.measure` on a group with zero children does
NOT return 0 × 0. Evaluating the code at a row group with gap 5 and no
children (ratio 1) yields `_renderHeight = -Infinity` (from
`Math.max(...[])`) and `_renderWidth = -5` (from `(0 - 1) * gap`); the
column layout gives the transposed result. -/
theorem measure_empty_group_not_zero :
    (LayoutEngine.measure (fun _ _ => 0) {} 1 (.group "row" (some 5) [])).renderH
      = JsNum.negInf ∧
    (LayoutEngine.measure (fun _ _ => 0) {} 1 (.group "row" (some 5) [])).renderW
      = JsNum.fin (-5) ∧
    (LayoutEngine.measure (fun _ _ => 0) {} 1 (.group "column" (some 5) [])).renderW
      = JsNum.negInf ∧
    (LayoutEngine.measure (fun _ _ => 0) {} 1 (.group "column" (some 5) [])).renderH
      = JsNum.fin (-5) := by
  refine ⟨rfl, ?_, rfl, ?_⟩ <;>
    simp [LayoutEngine.measure, LayoutEngine.measureList, jsSum, jsOrQ,
      MeasuredNode.renderW, MeasuredNode.renderH, JsNum.add]

theorem ltJ_fin_posInf (d : ℚ) : JsNum.ltJ (.fin d) .posInf = true := rfl

theorem ltJ_fin_trans (d d2 : ℚ) (m : JsNum)
    (h : JsNum.ltJ (.fin d) m = true) (h2 : d2 < d) :
    JsNum.ltJ (.fin d2) m = true := by
  cases m <;> simp_all [JsNum.ltJ]
  exact lt_trans h2 h

theorem ltJ_fin_false_lt (d d2 : ℚ) (m : JsNum)
    (h : JsNum.ltJ (.fin d) m = false) (h2 : JsNum.ltJ (.fin d2) m = true) :
    d2 < d := by
  cases m <;> simp_all [JsNum.ltJ]
  exact lt_of_lt_of_le h2 h

theorem targetRatio_default :
    ScrollObserver.targetRatio none none none = .fin (1 / 2) := by
  have h1 : List.range 1 = [0] := rfl
  have hcb : ("center" : String) ≠ "bottom" := by decide
  norm_num [ScrollObserver.targetRatio, jsOrStr, jsIndex, JsNum.add,
    JsNum.divQ, h1, hcb]

theorem distToJ_fin (lq : ℚ) (r : RectQ) :
    ScrollObserver.distToJ (.fin lq) r
      = .fin (ScrollObserver.distTo lq r) := by
  simp [ScrollObserver.distToJ, ScrollObserver.distTo, JsNum.subJ, JsNum.absJ]

theorem scanItems_spec (line : ℚ) (rs : List RectQ) :
    ∀ (best : Option (ℕ × RectQ)) (m : JsNum) (k : ℕ),
    (ScrollObserver.scanItems (.fin line) best m k rs = best ∧
      ∀ j, j < rs.length →
        JsNum.ltJ (.fin (ScrollObserver.distTo line (rs.getD j dfltRect))) m
          = false) ∨
    (∃ j, j < rs.length ∧
      ScrollObserver.scanItems (.fin line) best m k rs
        = some (k + j, rs.getD j dfltRect) ∧
      JsNum.ltJ (.fin (ScrollObserver.distTo line (rs.getD j dfltRect))) m
        = true ∧
      (∀ j2, j2 < rs.length → j2 < j →
        ScrollObserver.distTo line (rs.getD j dfltRect)
          < ScrollObserver.distTo line (rs.getD j2 dfltRect)) ∧
      (∀ j2, j2 < rs.length →
        ScrollObserver.distTo line (rs.getD j dfltRect)
          ≤ ScrollObserver.distTo line (rs.getD j2 dfltRect))) := by
  induction rs with
  | nil =>
    intro best m k
    refine Or.inl ⟨rfl, ?_⟩
    intro j hj
    exact absurd hj (Nat.not_lt_zero j)
  | cons r rs ih =>
    intro best m k
    cases hlt : JsNum.ltJ (.fin (ScrollObserver.distTo line r)) m with
    | true =>
      have hs : ScrollObserver.scanItems (.fin line) best m k (r :: rs)
          = ScrollObserver.scanItems (.fin line) (some (k, r))
              (.fin (ScrollObserver.distTo line r)) (k + 1) rs := by
        simp [ScrollObserver.scanItems, distToJ_fin, hlt]
      rcases ih (some (k, r)) (.fin (ScrollObserver.distTo line r)) (k + 1)
        with ⟨heq, hall⟩ | ⟨j, hj, heq, h2, hstrict, hle⟩
      · refine Or.inr ⟨0, by simp, ?_, ?_, ?_, ?_⟩
        · rw [hs, heq]; simp
        · simpa using hlt
        · intro j2 _ hj2
          exact absurd hj2 (Nat.not_lt_zero j2)
        · intro j2 hj2len
          cases j2 with
          | zero => simp
          | succ j2p =>
            have hx := hall j2p (by simpa using hj2len)
            simp only [JsNum.ltJ, decide_eq_false_iff_not, not_lt] at hx
            simpa using hx
      · refine Or.inr ⟨j + 1, by simpa using hj, ?_, ?_, ?_, ?_⟩
        · rw [hs, heq]
          simp only [List.getD_cons_succ]
          congr 2
          omega
        · simpa using ltJ_fin_trans _ _ _ hlt
            (by simpa [JsNum.ltJ] using h2)
        · intro j2 hj2len hj2
          cases j2 with
          | zero =>
            simpa using (by simpa [JsNum.ltJ] using h2 :
              ScrollObserver.distTo line (rs.getD j dfltRect)
                < ScrollObserver.distTo line r)
          | succ j2p =>
            simpa using hstrict j2p (by simpa using hj2len) (by omega)
        · intro j2 hj2len
          cases j2 with
          | zero =>
            simpa using le_of_lt (by simpa [JsNum.ltJ] using h2 :
              ScrollObserver.distTo line (rs.getD j dfltRect)
                < ScrollObserver.distTo line r)
          | succ j2p =>
            simpa using hle j2p (by simpa using hj2len)
    | false =>
      have hs : ScrollObserver.scanItems (.fin line) best m k (r :: rs)
          = ScrollObserver.scanItems (.fin line) best m (k + 1) rs := by
        simp [ScrollObserver.scanItems, distToJ_fin, hlt]
      rcases ih best m (k + 1)
        with ⟨heq, hall⟩ | ⟨j, hj, heq, h2, hstrict, hle⟩
      · refine Or.inl ⟨by rw [hs, heq], ?_⟩
        intro j2 hj2len
        cases j2 with
        | zero => simpa using hlt
        | succ j2p => simpa using hall j2p (by simpa using hj2len)
      · refine Or.inr ⟨j + 1, by simpa using hj, ?_, ?_, ?_, ?_⟩
        · rw [hs, heq]
          simp only [List.getD_cons_succ]
          congr 2
          omega
        · simpa using h2
        · intro j2 hj2len hj2
          cases j2 with
          | zero =>
            simpa using ltJ_fin_false_lt _ _ _ hlt h2
          | succ j2p =>
            simpa using hstrict j2p (by simpa using hj2len) (by omega)
        · intro j2 hj2len
          cases j2 with
          | zero =>
            simpa using le_of_lt (ltJ_fin_false_lt _ _ _ hlt h2)
          | succ j2p =>
            simpa using hle j2p (by simpa using hj2len)

/-- C4 counterexample (the claim as stated is false on the code): with
the out-of-range focus band index 5 and default bands, the source reads
`layers[i]` as `undefined`, so `targetRatio` is `NaN`, every distance is
`NaN`, `NaN < Infinity` is false, and `_handleScroll` invokes
`onScrollCenter` with nothing even though two children match the
selector. -/
theorem handleScroll_nan_ratio_no_callback :
    ScrollObserver.targetRatio none (some 5) none = JsNum.nan ∧
    ScrollObserver.handleScroll 0 30 none (some 5) none
      [⟨0, 10⟩, ⟨20, 10⟩] = none :=
  ⟨by decide, by decide⟩

/-- C4 (amended): whenever `_handleScroll` runs with a non-empty list of
matched children and the configuration yields a numeric focus ratio
(`targetRatio` evaluates to a number `q` — as it does for the defaults
and for any focus band index within the bands array; an out-of-range
index makes the ratio `NaN` and suppresses the callback, see the
counterexample), it produces an `onScrollCenter` payload whose element is
the child whose vertical center has minimum absolute distance to the
focus line `containerTop + containerHeight * targetRatio`, with the
payload index being the child's index among the matches; exact ties are
broken in favour of the earlier child in document order (the comparison
is a strict `<`). With the default bands `[45, 10, 45]`, the default
(middle) start index and `center` sub-position, `targetRatio` is `1/2`. -/
theorem handleScroll_picks_closest (cTop cHeight : ℚ)
    (layered : Option (List ℚ)) (startIndex : Option ℕ)
    (centerCoordinate : Option String) (rects : List RectQ)
    (hne : rects ≠ []) (q : ℚ)
    (htr : ScrollObserver.targetRatio layered startIndex centerCoordinate
      = .fin q) :
    (∃ i, i < rects.length ∧
      ScrollObserver.handleScroll cTop cHeight layered startIndex
          centerCoordinate rects
        = some (i, rects.getD i dfltRect) ∧
      (∀ j, j < rects.length →
        ScrollObserver.distTo (cTop + cHeight * q) (rects.getD i dfltRect)
          ≤ ScrollObserver.distTo (cTop + cHeight * q)
              (rects.getD j dfltRect)) ∧
      (∀ j, j < rects.length → j < i →
        ScrollObserver.distTo (cTop + cHeight * q) (rects.getD i dfltRect)
          < ScrollObserver.distTo (cTop + cHeight * q)
              (rects.getD j dfltRect))) ∧
    ScrollObserver.targetRatio none none none = .fin (1 / 2) := by
  constructor
  · have hline : JsNum.add (.fin cTop)
        (JsNum.mulJ (.fin cHeight)
          (ScrollObserver.targetRatio layered startIndex centerCoordinate))
        = .fin (cTop + cHeight * q) := by
      rw [htr]
      simp [JsNum.add, JsNum.mulJ]
    rcases scanItems_spec (cTop + cHeight * q) rects none .posInf 0
      with ⟨heq, hall⟩ | ⟨j, hj, heq, h2, hstrict, hle⟩
    · rcases rects with _ | ⟨r, rs⟩
      · exact absurd rfl hne
      · have := hall 0 (by simp)
        simp [ltJ_fin_posInf] at this
    · refine ⟨j, hj, ?_, hle, fun j2 h2len h2lt => hstrict j2 h2len h2lt⟩
      unfold ScrollObserver.handleScroll
      rw [hline]
      simpa using heq
  · exact targetRatio_default

/-- Witness for C4: the default configuration (ratio 1/2) with two
children whose centers are exactly equidistant from the focus line; the
earlier one (index 0) is selected. -/
theorem handleScroll_picks_closest_witness :
    ([(⟨0, 10⟩ : RectQ), ⟨20, 10⟩] : List RectQ) ≠ [] ∧
    ScrollObserver.targetRatio none none none = .fin (1 / 2) ∧
    ((∃ i, i < ([(⟨0, 10⟩ : RectQ), ⟨20, 10⟩] : List RectQ).length ∧
      ScrollObserver.handleScroll 0 30 none none none [⟨0, 10⟩, ⟨20, 10⟩]
        = some (i, ([(⟨0, 10⟩ : RectQ), ⟨20, 10⟩]).getD i dfltRect) ∧
      (∀ j, j < ([(⟨0, 10⟩ : RectQ), ⟨20, 10⟩] : List RectQ).length →
        ScrollObserver.distTo (0 + 30 * (1 / 2))
            (([(⟨0, 10⟩ : RectQ), ⟨20, 10⟩]).getD i dfltRect)
          ≤ ScrollObserver.distTo (0 + 30 * (1 / 2))
              (([(⟨0, 10⟩ : RectQ), ⟨20, 10⟩]).getD j dfltRect)) ∧
      (∀ j, j < ([(⟨0, 10⟩ : RectQ), ⟨20, 10⟩] : List RectQ).length → j < i →
        ScrollObserver.distTo (0 + 30 * (1 / 2))
            (([(⟨0, 10⟩ : RectQ), ⟨20, 10⟩]).getD i dfltRect)
          < ScrollObserver.distTo (0 + 30 * (1 / 2))
              (([(⟨0, 10⟩ : RectQ), ⟨20, 10⟩]).getD j dfltRect))) ∧
    ScrollObserver.targetRatio none none none = .fin (1 / 2)) :=
  ⟨by simp, targetRatio_default,
   handleScroll_picks_closest 0 30 none none none
    [⟨0, 10⟩, ⟨20, 10⟩] (by simp) (1 / 2) targetRatio_default⟩


theorem visInv_handleEntry (s : VisState) (b : Bool)
    (h : VisibilityObserver.VisInv s) :
    VisibilityObserver.VisInv (VisibilityObserver.handleEntry s b) := by
  obtain ⟨h1, h2⟩ := h
  by_cases hb : (b && !s.initialized) = true
  · have hinit : s.initialized = false := by
      rcases Bool.and_eq_true .. |>.mp hb with ⟨_, hni⟩
      simpa using hni
    simp [VisibilityObserver.handleEntry, hb, VisibilityObserver.VisInv]
    rw [h1, hinit]
    simp
  · simpa [VisibilityObserver.handleEntry, hb, VisibilityObserver.VisInv]
      using ⟨h1, h2⟩

theorem visInv_handleEntries (s : VisState) (entries : List Bool)
    (h : VisibilityObserver.VisInv s) :
    VisibilityObserver.VisInv (VisibilityObserver.handleEntries s entries) := by
  induction entries generalizing s with
  | nil => exact h
  | cons b bs ih =>
    exact ih _ (visInv_handleEntry s b h)

theorem visInv_run (s : VisState) (batches : List (List Bool))
    (h : VisibilityObserver.VisInv s) :
    VisibilityObserver.VisInv (VisibilityObserver.run s batches) := by
  induction batches generalizing s with
  | nil => exact h
  | cons b bs ih =>
    apply ih
    unfold VisibilityObserver.deliver
    split
    · exact visInv_handleEntries s b h
    · exact h

/-- C7: over the whole lifetime of a `VisibilityObserver`, starting from
the state `_startObserve` sets up, any sequence of intersection callback
deliveries invokes `onInit` at most once; and once the initialized flag is
set, both the intersection observer and the mutation observer are
disconnected, so no later viewport exit/re-entry can trigger the callback
again. -/
theorem visibilityObserver_one_shot (moActive : Bool)
    (batches : List (List Bool)) :
    (VisibilityObserver.run (VisibilityObserver.startState moActive)
        batches).initCount ≤ 1 ∧
    ((VisibilityObserver.run (VisibilityObserver.startState moActive)
        batches).initialized = true →
      (VisibilityObserver.run (VisibilityObserver.startState moActive)
          batches).ioActive = false ∧
      (VisibilityObserver.run (VisibilityObserver.startState moActive)
          batches).moActive = false) := by
  have hinv : VisibilityObserver.VisInv
      (VisibilityObserver.run (VisibilityObserver.startState moActive)
        batches) := by
    apply visInv_run
    constructor
    · simp [VisibilityObserver.startState]
    · intro h
      simp [VisibilityObserver.startState] at h
  obtain ⟨h1, h2⟩ := hinv
  refine ⟨?_, h2⟩
  rw [h1]
  split <;> omega

/-- Witness for C7: a batch sequence containing two intersecting entries
across separate deliveries still yields exactly one `onInit`. -/
theorem visibilityObserver_one_shot_witness :
    (VisibilityObserver.run (VisibilityObserver.startState true)
        [[true], [false, true], [true]]).initCount ≤ 1 ∧
    (VisibilityObserver.run (VisibilityObserver.startState true)
        [[true], [false, true], [true]]).ioActive = false ∧
    (VisibilityObserver.run (VisibilityObserver.startState true)
        [[true], [false, true], [true]]).moActive = false :=
  ⟨(visibilityObserver_one_shot true [[true], [false, true], [true]]).1,
   ((visibilityObserver_one_shot true [[true], [false, true], [true]]).2
     (by decide)).1,
   ((visibilityObserver_one_shot true [[true], [false, true], [true]]).2
     (by decide)).2⟩

theorem soIdle_step (hasCb : Bool) (s : SoState) (e : ScrollObserver.SoEvent)
    (h : ScrollObserver.SoIdle s) :
    ScrollObserver.SoIdle (ScrollObserver.soStep hasCb s e) := by
  obtain ⟨h1, h2, h3⟩ := h
  cases e with
  | addChildren n =>
    exact ⟨h1, h2, h3⟩
  | scroll =>
    simp [ScrollObserver.soStep, h1]
    exact ⟨h1, h2, h3⟩
  | resize =>
    simp [ScrollObserver.soStep, h1]
    exact ⟨h1, h2, h3⟩
  | rafFire =>
    simp [ScrollObserver.soStep, h2]
    exact ⟨h1, h2, h3⟩

/-- C10: when `_init` runs with no element matching the child selector, it
returns before attaching any scroll or resize listener, and afterwards no
sequence of child insertions, scrolls, resizes and animation-frame fires
ever invokes `onScrollCenter` — the listeners remain unattached. -/
theorem scrollObserver_empty_init_dead (hasCb : Bool)
    (evs : List ScrollObserver.SoEvent) :
    (ScrollObserver.soRun hasCb
        (ScrollObserver.initStep hasCb ScrollObserver.soEmptyStart)
        evs).cbCount = 0 ∧
    (ScrollObserver.soRun hasCb
        (ScrollObserver.initStep hasCb ScrollObserver.soEmptyStart)
        evs).attached = false := by
  have h0 : ScrollObserver.initStep hasCb ScrollObserver.soEmptyStart
      = ScrollObserver.soEmptyStart := by
    simp [ScrollObserver.initStep, ScrollObserver.soEmptyStart]
  rw [h0]
  have hrun : ∀ (evs2 : List ScrollObserver.SoEvent) (st : SoState),
      ScrollObserver.SoIdle st →
      ScrollObserver.SoIdle (ScrollObserver.soRun hasCb st evs2) := by
    intro evs2
    induction evs2 with
    | nil => intro st hst; exact hst
    | cons e es ih =>
      intro st hst
      exact ih _ (soIdle_step hasCb st e hst)
  have hidle := hrun evs ScrollObserver.soEmptyStart ⟨rfl, rfl, rfl⟩
  exact ⟨hidle.2.2, hidle.1⟩

theorem render_children (s : WmState) :
    (Watermark.render s).containerChildren =
      Watermark.removeFirstById s.options.id s.containerChildren
        ++ [⟨s.options.id, s.nextNodeId⟩] := by
  by_cases hm : s.options.monitor <;>
    simp [Watermark.render, Watermark.stopMonitor, Watermark.startMonitor, hm]

/-- C3: from a mounted, monitored state, externally removing the overlay
node makes the observer callback schedule the debounced re-render with the
fixed 100 ms delay, and when that timer fires the re-render removes any
existing overlay and recreates it wholesale, so the container again
contains an overlay element carrying the configured id. -/
theorem tamper_self_heal (s : WmState) (w : ℕ)
    (hobs : s.observerActive = true)
    (hdom : s.watermarkDom = some w) :
    (Watermark.observerCallback (Watermark.externalRemove w s)
        [.childListRemoved [w]]).pendingDebounceMs = some 100 ∧
    ∃ e ∈ (Watermark.debounceFire
        (Watermark.observerCallback (Watermark.externalRemove w s)
          [.childListRemoved [w]])).containerChildren,
      e.idAttr = s.options.id := by
  have h2 : Watermark.observerCallback (Watermark.externalRemove w s)
      [.childListRemoved [w]]
      = { Watermark.externalRemove w s with pendingDebounceMs := some 100 } := by
    simp [Watermark.observerCallback, Watermark.externalRemove, hobs, hdom]
  refine ⟨by rw [h2], ?_⟩
  rw [h2]
  simp only [Watermark.debounceFire]
  rw [render_children]
  refine ⟨⟨s.options.id, (Watermark.externalRemove w s).nextNodeId⟩,
    List.mem_append_right _ ?_, rfl⟩
  simp [Watermark.externalRemove]

/-- Witness for C3 at a concrete mounted state. -/
theorem tamper_self_heal_witness :
    (Watermark.observerCallback
        (Watermark.externalRemove 0
          { options := ⟨"watermark-layer", true⟩, hasContainer := true,
            containerChildren := [⟨"watermark-layer", 0⟩],
            watermarkDom := some 0, observerActive := true,
            resizeActive := true, pendingDebounceMs := none, nextNodeId := 1 })
        [.childListRemoved [0]]).pendingDebounceMs = some 100 ∧
    ∃ e ∈ (Watermark.debounceFire
        (Watermark.observerCallback
          (Watermark.externalRemove 0
            { options := ⟨"watermark-layer", true⟩, hasContainer := true,
              containerChildren := [⟨"watermark-layer", 0⟩],
              watermarkDom := some 0, observerActive := true,
              resizeActive := true, pendingDebounceMs := none,
              nextNodeId := 1 })
          [.childListRemoved [0]])).containerChildren,
      e.idAttr = "watermark-layer" :=
  tamper_self_heal
    { options := ⟨"watermark-layer", true⟩, hasContainer := true,
      containerChildren := [⟨"watermark-layer", 0⟩], watermarkDom := some 0,
      observerActive := true, resizeActive := true, pendingDebounceMs := none,
      nextNodeId := 1 } 0 rfl rfl

/-- C8: `destroy()` disconnects the mutation and resize observers, removes
the overlay element from the container when present, and clears the
reference; destroying again from the resulting state — or destroying when
nothing is mounted — changes no state, and the modelled `destroy` throws
on no path of the documented lifecycle. -/
theorem destroy_idempotent (s : WmState) :
    (∀ s2, Watermark.destroy s = some s2 →
      Watermark.destroy s2 = some s2 ∧
      s2.observerActive = false ∧ s2.resizeActive = false ∧
      s2.watermarkDom = none ∧
      (∀ w, s.watermarkDom = some w →
        ∀ e ∈ s2.containerChildren, e.nodeId ≠ w)) ∧
    (s.observerActive = false → s.resizeActive = false →
      s.watermarkDom = none → Watermark.destroy s = some s) := by
  obtain ⟨opts, hc, cc, wd, oa, ra, pd, nn⟩ := s
  constructor
  · intro s2 h
    cases wd with
    | none =>
      simp [Watermark.destroy] at h
      subst h
      refine ⟨by simp [Watermark.destroy], rfl, rfl, rfl, ?_⟩
      intro w hw
      simp at hw
    | some w0 =>
      cases hc with
      | false => simp [Watermark.destroy] at h
      | true =>
        simp [Watermark.destroy] at h
        subst h
        refine ⟨by simp [Watermark.destroy], rfl, rfl, rfl, ?_⟩
        intro w hw e he
        simp at hw
        subst hw
        simp [List.mem_filter] at he
        exact he.2
  · intro h1 h2 h3
    simp at h3
    subst h3
    subst h1
    subst h2
    simp [Watermark.destroy]

/-- Witness for C8: destroying a concrete mounted instance, then
destroying the result again, is a no-op the second time; observers are
stopped and the overlay is gone. -/
theorem destroy_idempotent_witness :
    (Watermark.destroy
        { options := ⟨"watermark-layer", true⟩, hasContainer := true,
          containerChildren := [⟨"watermark-layer", 5⟩, ⟨"other", 6⟩],
          watermarkDom := some 5, observerActive := true, resizeActive := true,
          pendingDebounceMs := none, nextNodeId := 7 }
      = some
        { options := ⟨"watermark-layer", true⟩, hasContainer := true,
          containerChildren := [⟨"other", 6⟩], watermarkDom := none,
          observerActive := false, resizeActive := false,
          pendingDebounceMs := none, nextNodeId := 7 }) ∧
    Watermark.destroy
        { options := ⟨"watermark-layer", true⟩, hasContainer := true,
          containerChildren := [⟨"other", 6⟩], watermarkDom := none,
          observerActive := false, resizeActive := false,
          pendingDebounceMs := none, nextNodeId := 7 }
      = some
        { options := ⟨"watermark-layer", true⟩, hasContainer := true,
          containerChildren := [⟨"other", 6⟩], watermarkDom := none,
          observerActive := false, resizeActive := false,
          pendingDebounceMs := none, nextNodeId := 7 } :=
  ⟨by decide,
   ((destroy_idempotent
      { options := ⟨"watermark-layer", true⟩, hasContainer := true,
        containerChildren := [⟨"watermark-layer", 5⟩, ⟨"other", 6⟩],
        watermarkDom := some 5, observerActive := true, resizeActive := true,
        pendingDebounceMs := none, nextNodeId := 7 }).1
     { options := ⟨"watermark-layer", true⟩, hasContainer := true,
       containerChildren := [⟨"other", 6⟩], watermarkDom := none,
       observerActive := false, resizeActive := false,
       pendingDebounceMs := none, nextNodeId := 7 }
     (by decide)).1⟩

/-- C9: when `apply` is called with an `el` option that resolves to no
element, it logs the console error and returns: no overlay is created or
mounted, the previous DOM and observer state are untouched (only the
merged options and the nulled container reference change), and no
exception occurs on this path (the modelled `apply` is total). -/
theorem apply_missing_target (s : WmState) (p : WmPatch)
    (bodyChildren : List Elem) :
    (Watermark.apply s p true none bodyChildren).2
      = ["Watermark: Mount element not found."] ∧
    (Watermark.apply s p true none bodyChildren).1.containerChildren
      = s.containerChildren ∧
    (Watermark.apply s p true none bodyChildren).1.watermarkDom
      = s.watermarkDom ∧
    (Watermark.apply s p true none bodyChildren).1.observerActive
      = s.observerActive ∧
    (Watermark.apply s p true none bodyChildren).1.resizeActive
      = s.resizeActive ∧
    (Watermark.apply s p true none bodyChildren).1.options
      = mergeOpts s.options p ∧
    (Watermark.apply s p true none bodyChildren).1.hasContainer = false := by
  simp [Watermark.apply]


/-- C6: `CanvasDrawer.generate` allocates a canvas of width
`|cos θ|·W + |sin θ|·H` and height `|sin θ|·W + |cos θ|·H`, where `W`,`H`
are the measured tree's render extents and `θ` the global rotation angle
(default −20°); the dimensions are unchanged when the rotation is negated,
and the ratio-scaled tile gaps `gx`/`gy` are added to width and height
respectively only when the layout mode is `'repeat'`. -/
theorem canvasSize_rotated_bbox (r : ℚ) (gap : GapOpt) (layout : Option String)
    (ratio : ℚ) (W H : ℝ) (hW : 0 ≤ W) (hH : 0 ≤ H) (hr : r ≠ 0) :
    ((CanvasDrawer.canvasSize (some r) gap layout ratio W H).1
        = |Real.cos (CanvasDrawer.angleOf (some r))| * W
          + |Real.sin (CanvasDrawer.angleOf (some r))| * H
          + (if layout = some "repeat" then ((gapXY gap ratio).1 : ℝ) else 0)) ∧
    ((CanvasDrawer.canvasSize (some r) gap layout ratio W H).2
        = |Real.sin (CanvasDrawer.angleOf (some r))| * W
          + |Real.cos (CanvasDrawer.angleOf (some r))| * H
          + (if layout = some "repeat" then ((gapXY gap ratio).2 : ℝ) else 0)) ∧
    CanvasDrawer.canvasSize (some (-r)) gap layout ratio W H
      = CanvasDrawer.canvasSize (some r) gap layout ratio W H ∧
    CanvasDrawer.angleOf none = (-20 : ℝ) * Real.pi / 180 := by
  have har : CanvasDrawer.angleOf (some (-r)) = -CanvasDrawer.angleOf (some r) := by
    simp only [CanvasDrawer.angleOf, jsOrQ, neg_eq_zero]
    rw [if_neg hr, if_neg hr]
    push_cast
    ring
  refine ⟨?_, ?_, ?_, ?_⟩
  · simp [CanvasDrawer.canvasSize, abs_mul, abs_of_nonneg hW, abs_of_nonneg hH]
  · simp [CanvasDrawer.canvasSize, abs_mul, abs_of_nonneg hW, abs_of_nonneg hH]
  · simp [CanvasDrawer.canvasSize, har, Real.cos_neg, Real.sin_neg, abs_neg]
  · simp only [CanvasDrawer.angleOf, jsOrQ]
    push_cast
    ring

/-- Witness for C6 at rotation 90°, scalar gap 5, tiled layout, ratio 1,
content 2 × 3. -/
theorem canvasSize_rotated_bbox_witness :
    ((CanvasDrawer.canvasSize (some 90) (.one 5) (some "repeat") 1 2 3).1
        = |Real.cos (CanvasDrawer.angleOf (some 90))| * 2
          + |Real.sin (CanvasDrawer.angleOf (some 90))| * 3
          + (if (some "repeat" : Option String) = some "repeat"
              then ((gapXY (.one 5) 1).1 : ℝ) else 0)) ∧
    ((CanvasDrawer.canvasSize (some 90) (.one 5) (some "repeat") 1 2 3).2
        = |Real.sin (CanvasDrawer.angleOf (some 90))| * 2
          + |Real.cos (CanvasDrawer.angleOf (some 90))| * 3
          + (if (some "repeat" : Option String) = some "repeat"
              then ((gapXY (.one 5) 1).2 : ℝ) else 0)) ∧
    CanvasDrawer.canvasSize (some (-90)) (.one 5) (some "repeat") 1 2 3
      = CanvasDrawer.canvasSize (some 90) (.one 5) (some "repeat") 1 2 3 ∧
    CanvasDrawer.angleOf none = (-20 : ℝ) * Real.pi / 180 :=
  canvasSize_rotated_bbox 90 (.one 5) (some "repeat") 1 2 3
    (by norm_num) (by norm_num) (by norm_num)


end CoreKit
